import Mathlib

/-!
# Verification of the hydro EigenDA data-availability pipeline

Shallow embedding of the hydro repository's EigenDA components:

* the host-side hint handler (`bin/host/src/eigenda/handler.rs`),
* the client-side oracle-backed provider (`crates/oracle/src/provider.rs`),
* the hint tag parser/printer (`crates/oracle/src/hint.rs`),
* the HTTP proxy client (`bin/host/src/eigenda/online_provider.rs`),
* the derivation source (`crates/eigenda/src/derive/eigenda.rs`).

Bytes are modelled as `List Nat` (each entry intended to be < 256), stateful
Rust code becomes explicit store passing, and Rust panics (failed `assert!`,
out-of-bounds slicing, `unwrap()`) surface as explicit error values so that
every function is total.

Repository code that is referenced but not part of the sources in scope
(`common/eigenda_data.rs`, `common/certificate.rs`, `common/constant.rs`,
`errors.rs`, the protobuf `CalldataFrame`, and external crates: keccak, RLP,
the kona base hint set, the witness builder) is modelled from the
specification; each such definition carries a doc comment starting with
`Modelled from the spec:`.
-/

deriving instance DecidableEq for Except

namespace Hydro

/-- Byte strings are modelled as lists of naturals (each intended `< 256`). -/
abbrev Bytes := List Nat

/-- `BYTES_PER_FIELD_ELEMENT` from `crates/eigenda/src/common/constant.rs`
(the spec fixes a field element at 32 bytes). -/
def BYTES_PER_FIELD_ELEMENT : Nat := 32

/-- Modelled from the spec: `BLOB_ENCODING_VERSION_0` (constant.rs is not in
scope); the concrete value is irrelevant, we use 0. -/
def BLOB_ENCODING_VERSION_0 : Nat := 0

/-- Modelled from the spec: the keccak256 digest of a structured lookup buffer
(external `alloy_primitives::keccak256`). It is modelled as the identity
injection of the lookup buffer, which preserves exactly the property the code
relies on: distinct lookup buffers give distinct digests. -/
def keccak256 (b : Bytes) : Bytes := b

/-- The two preimage key namespaces used by this pipeline
(`kona_preimage::PreimageKeyType`): `Keccak256` for self-describing entries and
`GlobalGeneric` for payload entries. -/
inductive PreimageKeyType
  | keccak256
  | globalGeneric
deriving DecidableEq, Repr

/-- Modelled from the spec: a preimage key is a digest together with a
namespace type tag (`kona_preimage::PreimageKey::new(hash, type)`). -/
structure PreimageKey where
  ty : PreimageKeyType
  digest : Bytes
deriving DecidableEq, Repr

/-- The shared key-value store. A `set` always conses the new entry at the
front, so the number of `set` calls performed on top of a store `s` is the
length difference, and `kvGet` returns the most recently written value. -/
abbrev Store := List (PreimageKey × Bytes)

/-- A single `kv.set(key, value)` call. -/
def kvSet (s : Store) (k : PreimageKey) (v : Bytes) : Store := (k, v) :: s

/-- A `kv.get(key)` lookup: the most recently written value for the key. -/
def kvGet : Store → PreimageKey → Option Bytes
  | [], _ => none
  | (k, v) :: rest, key => if k = key then some v else kvGet rest key

/-- Big-endian 4-byte encoding of a natural number (`u32::to_be_bytes`). -/
def be4 (n : Nat) : Bytes :=
  [n / 2 ^ 24 % 256, n / 2 ^ 16 % 256, n / 2 ^ 8 % 256, n % 256]

/-- Reads a big-endian 4-byte value from the front of a byte string. -/
def readBe4 : Bytes → Nat
  | a :: b :: c :: d :: _ => ((a * 256 + b) * 256 + c) * 256 + d
  | _ => 0

/-- Big-endian 8-byte encoding of a natural number (`u64::to_be_bytes`),
written into the reserved suffix of a 96-byte lookup key. -/
def be8 (n : Nat) : Bytes :=
  [n / 2 ^ 56 % 256, n / 2 ^ 48 % 256, n / 2 ^ 40 % 256, n / 2 ^ 32 % 256,
   n / 2 ^ 24 % 256, n / 2 ^ 16 % 256, n / 2 ^ 8 % 256, n % 256]

/-- `G1Commitment`: the certificate's recorded commitment point, two 32-byte
coordinates. -/
structure G1Commitment where
  x : Bytes
  y : Bytes
deriving DecidableEq, Repr

/-- `BlobHeader`: commitment point plus `data_length`, measured in field
elements. -/
structure BlobHeader where
  commitment : G1Commitment
  data_length : Nat
deriving DecidableEq, Repr

/-- `BlobInfo`: the certificate decoded from the post-header bytes of a
commitment. -/
structure BlobInfo where
  blob_header : BlobHeader
deriving DecidableEq, Repr

/-- Modelled from the spec: RLP decoding of a `BlobInfo` certificate
(`common/certificate.rs` is not in scope). The certificate is decoded from the
post-header bytes as commitment point `x` (32 bytes) ∥ `y` (32 bytes) ∥
big-endian 4-byte `data_length`; shorter inputs fail to decode. -/
def BlobInfo.decode (b : Bytes) : Option BlobInfo :=
  if 68 ≤ b.length then
    some ⟨⟨⟨b.take 32, (b.drop 32).take 32⟩, readBe4 (b.drop 64)⟩⟩
  else none

/-- Modelled from the spec: the blob length/version encode transform
(`common/eigenda_data.rs` is not in scope). The spec describes raw bytes
passed through "an additional length/version encode-decode transform"; the
model prepends a 32-byte header field element holding a zero byte, the
encoding version, and the big-endian 4-byte payload length. -/
def EigenDABlobData.encode (raw : Bytes) : Bytes :=
  [0, BLOB_ENCODING_VERSION_0] ++ be4 raw.length ++ List.replicate 26 0 ++ raw

/-- Modelled from the spec: the inverse blob transform
(`common/eigenda_data.rs` is not in scope). Reads the payload length from the
32-byte header and extracts that many payload bytes; inputs too short for the
header or the declared payload fail. -/
def EigenDABlobData.decode (blob : Bytes) : Except String Bytes :=
  if blob.length < 32 then .error "blob too short for header"
  else if 32 + readBe4 (blob.drop 2) ≤ blob.length then
    .ok ((blob.drop 32).take (readBe4 (blob.drop 2)))
  else .error "declared payload length exceeds blob"

/-- The field-element payload written for index `i` by the hint handler
(handler.rs, the `data_slice` computation): the `i`-th 32-byte slot of the
encoded blob, zero-padded at the end, and entirely zero when the slot starts
at or past the end of the encoded blob. -/
def dataSlice (eblob : Bytes) (i : Nat) : Bytes :=
  let start := i * 32
  if eblob.length ≤ start then List.replicate 32 0
  else
    let chunk := (eblob.drop start).take 32
    chunk ++ List.replicate (32 - chunk.length) 0

/-- The 96-byte lookup buffer for field element `i` (handler.rs `blob_key`):
`x (32) ∥ y (32) ∥ 24 zero bytes ∥ big-endian 8-byte index`. -/
def blobKey (x y : Bytes) (i : Nat) : Bytes :=
  x ++ y ++ List.replicate 24 0 ++ be8 i

/-- The field-element write loop of the hint handler: for each index
`i < n`, in ascending order, write the self-describing entry
(`Keccak256` namespace, digest ↦ lookup buffer) and then the payload entry
(`GlobalGeneric` namespace, digest ↦ 32-byte field element). -/
def writeFEs (x y eblob : Bytes) : Nat → Store → Store
  | 0, s => s
  | n + 1, s =>
      let s' := writeFEs x y eblob n s
      let key := blobKey x y n
      kvSet (kvSet s' ⟨.keccak256, keccak256 key⟩ key)
        ⟨.globalGeneric, keccak256 key⟩ (dataSlice eblob n)

/-- Host-side failures of the `EigenDABlob` hint branch. `assertFailed` is the
Rust `assert!` panic on the size invariant, `panic` the out-of-bounds slice
panic when the encoded blob is shorter than 64 bytes. -/
inductive HostErr
  | invalidHintData
  | proxyError
  | certDecodeError
  | assertFailed
  | panic
  | commitmentMismatch
deriving DecidableEq, Repr

/-- The `EigenDABlob` branch of `EigenDAChainHintHandler::fetch_hint`
(handler.rs). The proxy fetch and the witness builder are injected as
function parameters (the witness builder is an external capability returning
proof and commitment bytes and is modelled as total, per the spec's
`commitment_and_proof(blob) -> (bytes, bytes)` design note). The store is
returned even on failure because the Rust store is shared and mutated in
place: writes already performed persist. The `Standard` hint branch delegates
to the external base handler and is out of scope. -/
def fetch_hint (proxy : Bytes → Except String Bytes)
    (witnessFn : Bytes → Bytes × Bytes)
    (hintData : Bytes) (kv : Store) : Option HostErr × Store :=
  if hintData.length ≤ 32 then (some .invalidHintData, kv)
  else
    match proxy hintData with
    | .error _ => (some .proxyError, kv)
    | .ok blob =>
      match BlobInfo.decode (hintData.drop 3) with
      | none => (some .certDecodeError, kv)
      | some cert_blob_info =>
        let blob_length := cert_blob_info.blob_header.data_length
        let eigenda_blob := EigenDABlobData.encode blob
        if blob_length * BYTES_PER_FIELD_ELEMENT < eigenda_blob.length then
          (some .assertFailed, kv)
        else
          let x := cert_blob_info.blob_header.commitment.x
          let y := cert_blob_info.blob_header.commitment.y
          let kv₁ := writeFEs x y eigenda_blob blob_length kv
          -- the commitment "recomputed over the fetched blob" is the first
          -- 64 bytes of the re-encoded blob (`last_commitment` in the source);
          -- `||` short-circuits, so the x comparison happens before the
          -- (possibly panicking) y slice
          if eigenda_blob.take 32 ≠ x then (some .commitmentMismatch, kv₁)
          else if eigenda_blob.length < 64 then (some .panic, kv₁)
          else if (eigenda_blob.drop 32).take 32 ≠ y then
            (some .commitmentMismatch, kv₁)
          else
            let kzg_proof_key := x ++ y
            let kzg_commitment_key := x ++ y ++ [0]
            let kv₂ := kvSet
              (kvSet kv₁ ⟨.keccak256, keccak256 kzg_proof_key⟩ kzg_proof_key)
              ⟨.globalGeneric, keccak256 kzg_proof_key⟩ (witnessFn blob).1
            let kv₃ := kvSet
              (kvSet kv₂ ⟨.keccak256, keccak256 kzg_commitment_key⟩
                kzg_commitment_key)
              ⟨.globalGeneric, keccak256 kzg_commitment_key⟩ (witnessFn blob).2
            (none, kv₃)

/-- Client-side failures of `blob_get`. `hintFailed` propagates a failed hint
round-trip, `insufficientData` is the "does not contain header" error for
too-short commitments, `certPanic` is the `unwrap()` panic on certificate
decoding, `missingPreimage`/`notExact` are `get_exact` failures. -/
inductive ClientErr
  | hintFailed (e : HostErr)
  | insufficientData
  | certPanic
  | missingPreimage
  | notExact
  | decodeFailed
deriving DecidableEq, Repr

/-- The client's field-element read loop: for each index `i < n`, in ascending
order, `get_exact` the payload entry for the recomputed lookup key — the read
must return exactly 32 bytes. -/
def readFEs (kv : Store) (x y : Bytes) : Nat → Except ClientErr (List Bytes)
  | 0 => .ok []
  | n + 1 =>
    match readFEs kv x y n with
    | .error e => .error e
    | .ok prev =>
      match kvGet kv ⟨.globalGeneric, keccak256 (blobKey x y n)⟩ with
      | none => .error .missingPreimage
      | some fe => if fe.length = 32 then .ok (prev ++ [fe]) else .error .notExact

/-- `OracleEigenDaProvider::blob_get` (provider.rs). The hint round-trip is
injected as `sendHint` (the host's responder, which may mutate the store and
may fail — a hint failure propagates). Returns the result, the store after the
hint round-trip, and the list of hint payloads sent. Faithful to the source,
the hint is sent BEFORE the minimum-length check, and the certificate decode
is an `unwrap()`. The source's `field_element.is_empty()` test after a
successful `get_exact` is unreachable (the buffer is a fixed 32-byte array,
never empty) and is therefore not modelled. -/
def blob_get (sendHint : Bytes → Store → Option HostErr × Store)
    (kv : Store) (commitment : Bytes) :
    Except ClientErr Bytes × Store × List Bytes :=
  match sendHint commitment kv with
  | (some e, kv') => (.error (.hintFailed e), kv', [commitment])
  | (none, kv') =>
    if commitment.length ≤ 32 + 3 then (.error .insufficientData, kv', [commitment])
    else
      match BlobInfo.decode (commitment.drop 3) with
      | none => (.error .certPanic, kv', [commitment])
      | some cert_blob_info =>
        let data_length := cert_blob_info.blob_header.data_length
        let x := cert_blob_info.blob_header.commitment.x
        let y := cert_blob_info.blob_header.commitment.y
        match readFEs kv' x y data_length with
        | .error e => (.error e, kv', [commitment])
        | .ok fes =>
          match EigenDABlobData.decode fes.flatten with
          | .error _ => (.error .decodeFailed, kv', [commitment])
          | .ok bytes => (.ok bytes, kv', [commitment])

/-! ## Proxy client (`bin/host/src/eigenda/online_provider.rs`) -/

/-- `EigenDAProxyError` (errors.rs variants used by the proxy client). -/
inductive EigenDAProxyError
  | RetrieveBlobWithCommitment (m : String)
  | NotFound
  | NetworkError (m : String)
deriving DecidableEq, Repr

/-- The outcome of the single bounded HTTP GET issued by
`retrieve_blob_with_commitment`: the outer `tokio::time::timeout` elapsing,
the `reqwest` send failing (connection/transport error), or a response with a
status code whose body read may itself fail. -/
inductive HttpOutcome
  | timeoutElapsed (m : String)
  | sendError (m : String)
  | response (status : Nat) (body : Except String Bytes)
deriving DecidableEq, Repr

/-- `EigenDAProxy::retrieve_blob_with_commitment` (online_provider.rs): one
GET, no retries — the function consumes exactly one `HttpOutcome`. The outer
timeout maps to `NetworkError`; a send (connection) error maps to
`RetrieveBlobWithCommitment`; status 200 yields the body bytes (a failed body
read maps to `RetrieveBlobWithCommitment`); status 404 maps to `NotFound`;
any other status maps to `NetworkError`. -/
def retrieve_blob_with_commitment (resp : HttpOutcome) :
    Except EigenDAProxyError Bytes :=
  match resp with
  | .timeoutElapsed m => .error (.NetworkError m)
  | .sendError m => .error (.RetrieveBlobWithCommitment m)
  | .response status body =>
    if status = 200 then
      match body with
      | .ok bytes => .ok bytes
      | .error m => .error (.RetrieveBlobWithCommitment m)
    else if status = 404 then .error .NotFound
    else .error (.NetworkError "Failed to get blob with commitment")

/-- Whether a proxy result is the `NetworkError` variant. -/
def resultIsNetworkError : Except EigenDAProxyError Bytes → Bool
  | .error (.NetworkError _) => true
  | _ => false

/-! ## Hint protocol (`crates/oracle/src/hint.rs`) -/

/-- Modelled from the spec: the base hint kind of the external base parser
(`kona_proof::HintType`), a closed set of fixed textual tags. -/
inductive HintType
  | l1BlockHeader
  | l1Transactions
  | l1Receipts
  | l1Blob
  | l1Precompile
  | l2BlockHeader
  | l2Transactions
  | l2Code
  | l2StateNode
  | l2AccountProof
  | l2AccountStorageProof
  | l2PayloadWitness
deriving DecidableEq, Repr

/-- Modelled from the spec: parsing of the base hint set — each variant is
recognised by its fixed literal tag. -/
def HintType.fromStr (s : String) : Option HintType :=
  if s = "l1-block-header" then some .l1BlockHeader
  else if s = "l1-transactions" then some .l1Transactions
  else if s = "l1-receipts" then some .l1Receipts
  else if s = "l1-blob" then some .l1Blob
  else if s = "l1-precompile" then some .l1Precompile
  else if s = "l2-block-header" then some .l2BlockHeader
  else if s = "l2-transactions" then some .l2Transactions
  else if s = "l2-code" then some .l2Code
  else if s = "l2-state-node" then some .l2StateNode
  else if s = "l2-account-proof" then some .l2AccountProof
  else if s = "l2-account-storage-proof" then some .l2AccountStorageProof
  else if s = "l2-payload-witness" then some .l2PayloadWitness
  else none

/-- Modelled from the spec: printing of the base hint set — the exact inverse
of parsing. -/
def HintType.toStr : HintType → String
  | .l1BlockHeader => "l1-block-header"
  | .l1Transactions => "l1-transactions"
  | .l1Receipts => "l1-receipts"
  | .l1Blob => "l1-blob"
  | .l1Precompile => "l1-precompile"
  | .l2BlockHeader => "l2-block-header"
  | .l2Transactions => "l2-transactions"
  | .l2Code => "l2-code"
  | .l2StateNode => "l2-state-node"
  | .l2AccountProof => "l2-account-proof"
  | .l2AccountStorageProof => "l2-account-storage-proof"
  | .l2PayloadWitness => "l2-payload-witness"

/-- `HintParsingError` (kona), carrying the "unknown hint" message. -/
structure HintParsingError where
  msg : String
deriving DecidableEq, Repr

/-- `HintWrapper` (hint.rs): the closed variant set `Standard(base)` or
`EigenDABlob`. -/
inductive HintWrapper
  | standard (h : HintType)
  | eigenDABlob
deriving DecidableEq, Repr

/-- `HintWrapper::from_str` (hint.rs): try the base parser first, then accept
exactly the literal `"eigen-da-blob"`, otherwise fail with the unknown-hint
error. -/
def HintWrapper.fromStr (s : String) : Except HintParsingError HintWrapper :=
  match HintType.fromStr s with
  | some base => .ok (.standard base)
  | none =>
    if s = "eigen-da-blob" then .ok .eigenDABlob
    else .error ⟨"unknown hint"⟩

/-- `HintWrapper`'s `Display` implementation (hint.rs): print the base tag for
`Standard`, the literal `"eigen-da-blob"` for `EigenDABlob`. -/
def HintWrapper.format : HintWrapper → String
  | .standard h => h.toStr
  | .eigenDABlob => "eigen-da-blob"

/-! ## Derivation source (`crates/eigenda/src/derive/eigenda.rs`) -/

/-- `DERIVATION_VERSION_EIGEN_DA`: the reserved DA-selector byte. -/
def DERIVATION_VERSION_EIGEN_DA : Nat := 0xed

/-- Modelled from the spec: the error type of the derivation source
(`errors.rs` is not in scope), with the variants used by `eigenda.rs`.
`slicePanic` is the Rust out-of-bounds slice panic, surfaced as an error in
this total embedding. -/
inductive EigenDAProviderError
  | ProtoDecodeError (m : String)
  | Status (m : String)
  | RLPDecodeError (m : String)
  | Backend (m : String)
  | slicePanic
deriving DecidableEq, Repr

/-- `FrameRef`: a DA-referenced frame — commitment, declared blob length, and
quorum ids. -/
structure FrameRef where
  commitment : Bytes
  blob_length : Nat
  quorum_ids : List Nat
deriving DecidableEq, Repr

/-- The tagged union carried by a `CalldataFrame`: an inline frame or a frame
reference. -/
inductive CalldataFrameValue
  | frame (f : Bytes)
  | frameRef (r : FrameRef)
deriving DecidableEq, Repr

/-- `CalldataFrame`: the protobuf message decoded from post-selector calldata;
its value field is optional. -/
structure CalldataFrame where
  value : Option CalldataFrameValue
deriving DecidableEq, Repr

/-- Modelled from the spec: protobuf decoding of a `CalldataFrame` (the prost
message is not in scope). The model uses a simple tagged encoding: empty input
decodes with no value; tag 1 marks an inline frame holding the remaining
bytes; tag 2 marks a frame reference: 2-byte big-endian `blob_length`, a
commitment length byte, the commitment bytes, and the remaining bytes as
quorum ids; anything else fails to decode. -/
def CalldataFrame.decode : Bytes → Option CalldataFrame
  | [] => some ⟨none⟩
  | 1 :: rest => some ⟨some (.frame rest)⟩
  | 2 :: l1 :: l2 :: cn :: rest =>
    if cn ≤ rest.length then
      some ⟨some (.frameRef ⟨rest.take cn, l1 * 256 + l2, rest.drop cn⟩)⟩
    else none
  | _ => none

/-- Modelled from the spec: "decode … as a list of byte strings" (the external
RLP decoding of `VecOfBytes`). Each item is a length byte followed by that
many payload bytes. -/
def decodeVecOfBytesFuel : Nat → Bytes → Option (List Bytes)
  | _, [] => some []
  | 0, _ :: _ => none
  | fuel + 1, n :: rest =>
    if n ≤ rest.length then
      match decodeVecOfBytesFuel fuel (rest.drop n) with
      | some items => some (rest.take n :: items)
      | none => none
    else none

/-- Entry point of the list-of-byte-strings decoder: every step consumes at
least the length byte, so the input's length bounds the recursion depth and
the fuel never runs out. -/
def decodeVecOfBytes (b : Bytes) : Option (List Bytes) :=
  decodeVecOfBytesFuel b.length b

/-- The matching encoder for `decodeVecOfBytes`, used to build concrete
scenarios. -/
def encodeVecOfBytes (l : List Bytes) : Bytes :=
  (l.map (fun b => b.length :: b)).flatten

/-- `IndexedBlobHash` (alloy): a versioned blob hash with its running global
index. -/
structure IndexedBlobHash where
  hash : Nat
  index : Nat
deriving DecidableEq, Repr

/-- Assigns consecutive global indices to a transaction's blob hashes,
starting at `start`. -/
def indexHashes : List Nat → Nat → List IndexedBlobHash
  | [], _ => []
  | h :: t, i => ⟨h, i⟩ :: indexHashes t (i + 1)

/-- The transaction envelope kinds distinguished by the scan. `other` stands
for the `_ => continue` arms (e.g. deposit transactions). -/
inductive TxKind
  | legacy
  | eip2930
  | eip1559
  | eip4844
  | other
deriving DecidableEq, Repr

/-- A transaction as seen by the scan (external `alloy_consensus::TxEnvelope`,
reduced to the fields the scan reads): kind, destination (the Rust field\n`to`, renamed because `to` is a Lean token), calldata, blob
versioned hashes, and the recovered signer (`recover_signer().unwrap_or_default()`). -/
structure TxEnvelope where
  txType : TxKind
  to_addr : Option Nat
  input : Bytes
  blob_versioned_hashes : List Nat
  signer : Nat
deriving DecidableEq, Repr

/-- The blob-hash extraction of the scan's match: only EIP-4844 envelopes
carry blob hashes. -/
def TxEnvelope.blobHashes? (tx : TxEnvelope) : Option (List Nat) :=
  if tx.txType = .eip4844 then some tx.blob_versioned_hashes else none

/-- Resolution of a `FrameRef` inside `data_from_eigen_da` (eigenda.rs):
fetch through the DA-provider capability, truncate to the declared length with
the unguarded slice `blob_data[..blob_length]`, and decode the truncation as a
list of byte strings. The slice is modelled totally: when `blob_length`
exceeds the returned blob's length, the Rust slice panics, surfaced here as
`slicePanic`. -/
def resolveFrameRef (provider : Bytes → Except String Bytes)
    (r : FrameRef) : Except EigenDAProviderError (List Bytes) :=
  match provider r.commitment with
  | .error e => .error (.Status e)
  | .ok blob_data =>
    if r.blob_length ≤ blob_data.length then
      match decodeVecOfBytes (blob_data.take r.blob_length) with
      | none => .error (.RLPDecodeError "rlp list decode failed")
      | some items => .ok items
    else .error .slicePanic

/-- `EigenDASource::data_from_eigen_da` (eigenda.rs): scan the block's
transactions in order, keeping a running global blob-hash index. A transaction
is ignored (with its blob hashes still advancing the index) unless its
destination equals the configured batcher address (`self.batcher_address`,
here `self_batcher`) and its recovered signer equals the expected signer (the
`batcher_address` argument, here `arg_batcher`). Empty calldata on an EIP-4844
transaction records its blob hashes at the current indices; calldata whose
first byte is the DA selector is decoded as a `CalldataFrame`; a frame
reference with empty quorum ids is dropped with a warning. -/
def data_from_eigen_da (provider : Bytes → Except String Bytes)
    (self_batcher arg_batcher : Nat) :
    List TxEnvelope → Nat →
    Except EigenDAProviderError (List Bytes × List IndexedBlobHash)
  | [], _ => .ok ([], [])
  | tx :: rest, index =>
    if tx.txType = .other then
      data_from_eigen_da provider self_batcher arg_batcher rest index
    else
      match tx.to_addr with
      | none => data_from_eigen_da provider self_batcher arg_batcher rest index
      | some dest =>
        if dest ≠ self_batcher then
          data_from_eigen_da provider self_batcher arg_batcher rest
            (index + (tx.blobHashes?.elim 0 List.length))
        else if tx.signer ≠ arg_batcher then
          data_from_eigen_da provider self_batcher arg_batcher rest
            (index + (tx.blobHashes?.elim 0 List.length))
        else if tx.input = [] then
          if tx.txType = .eip4844 then
            match tx.blobHashes? with
            | some hs =>
              (data_from_eigen_da provider self_batcher arg_batcher rest
                (index + hs.length)).map
                (fun (dh : List Bytes × List IndexedBlobHash) => (dh.1, indexHashes hs index ++ dh.2))
            | none => data_from_eigen_da provider self_batcher arg_batcher rest index
          else data_from_eigen_da provider self_batcher arg_batcher rest index
        else if tx.input.head? = some DERIVATION_VERSION_EIGEN_DA then
          match CalldataFrame.decode tx.input.tail with
          | none => .error (.ProtoDecodeError "calldata frame decode failed")
          | some cf =>
            match cf.value with
            | none => data_from_eigen_da provider self_batcher arg_batcher rest index
            | some (.frame f) =>
              (data_from_eigen_da provider self_batcher arg_batcher rest index).map
                (fun (dh : List Bytes × List IndexedBlobHash) => (f :: dh.1, dh.2))
            | some (.frameRef r) =>
              if r.quorum_ids = [] then
                data_from_eigen_da provider self_batcher arg_batcher rest index
              else
                match resolveFrameRef provider r with
                | .error e => .error e
                | .ok items =>
                  (data_from_eigen_da provider self_batcher arg_batcher rest index).map
                    (fun (dh : List Bytes × List IndexedBlobHash) => (items ++ dh.1, dh.2))
        else data_from_eigen_da provider self_batcher arg_batcher rest index

/-- A block reference, reduced to the hash used to fetch transactions. -/
structure BlockInfo where
  hash : Nat
deriving DecidableEq, Repr

/-- Modelled from the spec: the base blob path's `BlobData::fill` (external
kona code) — returns the blob at the current blob index, failing when out of
range, and always signals that the index should advance. -/
def fillBlob (blobs : List Bytes) (i : Nat) : Except String Bytes :=
  match blobs.get? i with
  | some b => .ok b
  | none => .error "blob index out of range"

/-- The per-hash loop of `load_blobs`: for each recorded blob hash, fill the
blob at the running blob index, decode it through the blob transform
(a failed decode is skipped with a warning, contributing nothing), and
concatenate the decoded bytes. -/
def collectBlobBytes (blobs : List Bytes) : Nat → Nat → Except String Bytes
  | 0, _ => .ok []
  | n + 1, i =>
    match fillBlob blobs i with
    | .error e => .error e
    | .ok b =>
      let decoded := match EigenDABlobData.decode b with
        | .ok d => d
        | .error _ => []
      match collectBlobBytes blobs n (i + 1) with
      | .error e => .error e
      | .ok restBytes => .ok (decoded ++ restBytes)

/-- `EigenDASource` state: the configured batcher address, the queue of
resolved frames, and the open/closed flag (the Rust field `open`, renamed
because `open` is a Lean keyword). -/
structure EigenDASource where
  batcher_address : Nat
  data : List Bytes
  isOpen : Bool
deriving DecidableEq, Repr

/-- `EigenDASource::load_blobs` (eigenda.rs): a no-op when already open;
otherwise fetch the block's transactions, scan them, and — when blob hashes
were recorded — fetch those blobs through the base blob path, concatenate
their decoded bytes, decode the result as a list of byte strings, and append
each after the scan frames. On success the source is marked open; on failure
the state is unchanged (the Rust code only assigns `self.data`/`self.open` at
the end). -/
def load_blobs (chain : Nat → Except String (List TxEnvelope))
    (blob_fetcher : List IndexedBlobHash → Except String (List Bytes))
    (provider : Bytes → Except String Bytes)
    (src : EigenDASource) (block_ref : BlockInfo) (batcher_address : Nat) :
    Except EigenDAProviderError EigenDASource :=
  if src.isOpen then .ok src
  else
    match chain block_ref.hash with
    | .error e => .error (.Backend e)
    | .ok txs =>
      match data_from_eigen_da provider src.batcher_address batcher_address txs 0 with
      | .error e => .error e
      | .ok (blob_data, blob_hashes) =>
        if blob_hashes.isEmpty then
          .ok { src with data := blob_data, isOpen := true }
        else
          match blob_fetcher blob_hashes with
          | .error e => .error (.Backend e)
          | .ok blobs =>
            match collectBlobBytes blobs blob_hashes.length 0 with
            | .error e => .error (.Backend e)
            | .ok whole =>
              match decodeVecOfBytes whole with
              | none => .error (.RLPDecodeError "rlp list decode failed")
              | some items =>
                .ok { src with data := blob_data ++ items, isOpen := true }

/-- The pipeline signal returned by `next`: `eof` is the soft "no more data
for this block" signal, `provider` wraps a failed load. -/
inductive PipelineErr
  | eof
  | provider (m : String)
deriving DecidableEq, Repr

/-- `EigenDASource::next_data` (eigenda.rs): pop the oldest queued frame, or
fail with the `Eof` signal when the queue is empty. -/
def next_data (src : EigenDASource) : Except PipelineErr Bytes × EigenDASource :=
  match src.data with
  | [] => (.error .eof, src)
  | d :: rest => (.ok d, { src with data := rest })

/-- `EigenDASource::next` (the `DataAvailabilityProvider` implementation):
load the block's frames if not yet open, then pop the oldest queued frame. -/
def EigenDASource.next (chain : Nat → Except String (List TxEnvelope))
    (blob_fetcher : List IndexedBlobHash → Except String (List Bytes))
    (provider : Bytes → Except String Bytes)
    (src : EigenDASource) (block_ref : BlockInfo) (batcher_address : Nat) :
    Except PipelineErr Bytes × EigenDASource :=
  match load_blobs chain blob_fetcher provider src block_ref batcher_address with
  | .error _ => (.error (.provider "Failed to load eigen_da blobs from stream"), src)
  | .ok src' => next_data src'

/-- `EigenDASource::clear`: discard the queue and reset the source to closed. -/
def EigenDASource.clear (src : EigenDASource) : EigenDASource :=
  { src with data := [], isOpen := false }

/-! ## Basic lemmas about the codec, keys and the store -/

theorem readBe4_be4 (n : Nat) (t : Bytes) (h : n < 2 ^ 32) : readBe4 (be4 n ++ t) = n := by
  simp only [be4, List.cons_append, List.nil_append, readBe4]
  omega

theorem readBe4_lt (l : Bytes) (h : ∀ b ∈ l, b < 256) : readBe4 l < 2 ^ 32 := by
  unfold readBe4
  split
  · next a b c d t =>
      have ha := h a (by simp)
      have hb := h b (by simp)
      have hc := h c (by simp)
      have hd := h d (by simp)
      omega
  · omega

theorem encode_length (raw : Bytes) :
    (EigenDABlobData.encode raw).length = 32 + raw.length := by
  simp [EigenDABlobData.encode, be4]
  omega

theorem encode_eq (raw : Bytes) :
    EigenDABlobData.encode raw =
      ([0, BLOB_ENCODING_VERSION_0] ++ be4 raw.length ++ List.replicate 26 0) ++ raw := by
  simp [EigenDABlobData.encode, List.append_assoc]

theorem decode_encode_pad (raw : Bytes) (k : Nat) (h : raw.length < 2 ^ 32) :
    EigenDABlobData.decode (EigenDABlobData.encode raw ++ List.replicate k 0) = .ok raw := by
  have hlen : (EigenDABlobData.encode raw ++ List.replicate k 0).length =
      32 + raw.length + k := by
    simp [encode_length]
  have hdrop2 : (EigenDABlobData.encode raw ++ List.replicate k 0).drop 2 =
      be4 raw.length ++ (List.replicate 26 0 ++ (raw ++ List.replicate k 0)) := by
    simp [EigenDABlobData.encode, List.append_assoc]
  have hdrop32 : (EigenDABlobData.encode raw ++ List.replicate k 0).drop 32 =
      raw ++ List.replicate k 0 := by
    rw [encode_eq, List.append_assoc]
    rw [show (32 : Nat) =
        ([0, BLOB_ENCODING_VERSION_0] ++ be4 raw.length ++ List.replicate 26 0).length
      by simp [be4]]
    exact List.drop_left _ _
  unfold EigenDABlobData.decode
  rw [if_neg (by omega), hdrop2, readBe4_be4 _ _ h, if_pos (by omega), hdrop32,
    List.take_left]

theorem be8_inj {i j : Nat} (hi : i < 2 ^ 64) (hj : j < 2 ^ 64)
    (h : be8 i = be8 j) : i = j := by
  simp only [be8, List.cons.injEq, and_true] at h
  omega

theorem blobKey_inj (x y : Bytes) {i j : Nat} (hi : i < 2 ^ 64) (hj : j < 2 ^ 64)
    (h : blobKey x y i = blobKey x y j) : i = j := by
  unfold blobKey at h
  exact be8_inj hi hj (List.append_cancel_left h)

theorem blobKey_length (x y : Bytes) (i : Nat) :
    (blobKey x y i).length = x.length + y.length + 32 := by
  simp [blobKey, be8]
  omega

theorem kvGet_set_self (s : Store) (k : PreimageKey) (v : Bytes) :
    kvGet (kvSet s k v) k = some v := by
  simp [kvSet, kvGet]

theorem kvGet_set_ne (s : Store) (k k' : PreimageKey) (v : Bytes) (h : k ≠ k') :
    kvGet (kvSet s k v) k' = kvGet s k' := by
  simp [kvSet, kvGet, h]

theorem keyDigest_length_ne {q₁ q₂ : PreimageKey}
    (h : q₁.digest.length ≠ q₂.digest.length) : q₁ ≠ q₂ :=
  fun he => h (by rw [he])

/-! ## Read-after-write lemmas for the field-element loop -/

theorem writeFEs_get (x y eb : Bytes) (L : Nat) (s : Store) (hL : L ≤ 2 ^ 64) :
    ∀ j, j < L →
      kvGet (writeFEs x y eb L s) ⟨.globalGeneric, keccak256 (blobKey x y j)⟩ =
        some (dataSlice eb j) := by
  induction L with
  | zero => intro j hj; omega
  | succ n ih =>
    intro j hj
    simp only [writeFEs]
    by_cases hjn : j = n
    · subst hjn
      exact kvGet_set_self _ _ _
    · have hinj : blobKey x y n ≠ blobKey x y j := fun hbk =>
        hjn ((blobKey_inj x y (by omega) (by omega) hbk).symm)
      have hne₁ : (⟨.globalGeneric, keccak256 (blobKey x y n)⟩ : PreimageKey) ≠
          ⟨.globalGeneric, keccak256 (blobKey x y j)⟩ := by
        simp only [ne_eq, PreimageKey.mk.injEq, keccak256, true_and]
        exact hinj
      have hne₂ : (⟨.keccak256, keccak256 (blobKey x y n)⟩ : PreimageKey) ≠
          ⟨.globalGeneric, keccak256 (blobKey x y j)⟩ := by
        simp [PreimageKey.mk.injEq]
      rw [kvGet_set_ne _ _ _ _ hne₁, kvGet_set_ne _ _ _ _ hne₂]
      exact ih (by omega) j (by omega)

theorem writeFEs_get_other (x y eb : Bytes) (L : Nat) (s : Store) (q : PreimageKey)
    (h : ∀ i, i < L → q.digest ≠ keccak256 (blobKey x y i)) :
    kvGet (writeFEs x y eb L s) q = kvGet s q := by
  induction L with
  | zero => rfl
  | succ n ih =>
    simp only [writeFEs]
    rw [kvGet_set_ne _ _ _ _ (fun he => h n (by omega) (congrArg PreimageKey.digest he).symm),
      kvGet_set_ne _ _ _ _ (fun he => h n (by omega) (congrArg PreimageKey.digest he).symm)]
    exact ih (fun i hi => h i (by omega))

theorem dataSlice_length (eb : Bytes) (i : Nat) : (dataSlice eb i).length = 32 := by
  unfold dataSlice
  by_cases h : eb.length ≤ i * 32
  · simp [h]
  · simp only [if_neg h, List.length_append, List.length_replicate, List.length_take,
      List.length_drop]
    omega

/-- The ascending list of field-element payloads the handler writes and the
client reads back. -/
def slicesList (eb : Bytes) : Nat → List Bytes
  | 0 => []
  | n + 1 => slicesList eb n ++ [dataSlice eb n]

theorem readFEs_ok (kv : Store) (x y eb : Bytes) (L : Nat)
    (hget : ∀ i, i < L →
      kvGet kv ⟨.globalGeneric, keccak256 (blobKey x y i)⟩ = some (dataSlice eb i)) :
    readFEs kv x y L = .ok (slicesList eb L) := by
  induction L with
  | zero => rfl
  | succ n ih =>
    simp only [readFEs, slicesList]
    rw [ih (fun i hi => hget i (by omega)), hget n (by omega)]
    simp [dataSlice_length]

theorem slicesList_flatten_aux (eb : Bytes) (L : Nat) :
    (slicesList eb L).flatten =
      eb.take (32 * L) ++ List.replicate (32 * L - (eb.take (32 * L)).length) 0 := by
  induction L with
  | zero => simp [slicesList]
  | succ n ih =>
    rw [slicesList, List.flatten_append, ih]
    simp only [List.flatten_cons, List.flatten_nil, List.append_nil]
    by_cases hc : eb.length ≤ n * 32
    · have h1 : eb.take (32 * n) = eb := List.take_of_length_le (by omega)
      have h2 : eb.take (32 * (n + 1)) = eb := List.take_of_length_le (by omega)
      rw [h1, h2]
      simp only [dataSlice]
      rw [if_pos hc, List.append_assoc, ← List.replicate_add]
      have hcount : 32 * n - eb.length + 32 = 32 * (n + 1) - eb.length := by omega
      rw [hcount]
    · have htake : eb.take (32 * (n + 1)) = eb.take (32 * n) ++ (eb.drop (32 * n)).take 32 := by
        rw [show 32 * (n + 1) = 32 * n + 32 by ring]
        exact List.take_add eb (32 * n) 32
      have hlen : (eb.take (32 * n)).length = 32 * n := by
        simp only [List.length_take]
        omega
      rw [hlen, Nat.sub_self, List.replicate_zero, List.append_nil, htake]
      simp only [dataSlice]
      rw [if_neg (by omega)]
      rw [show n * 32 = 32 * n by ring]
      have hcount : 32 - ((eb.drop (32 * n)).take 32).length =
          32 * (n + 1) - (eb.take (32 * n) ++ (eb.drop (32 * n)).take 32).length := by
        simp only [List.length_append, List.length_take, List.length_drop]
        omega
      rw [hcount]
      simp [List.append_assoc]

theorem slicesList_flatten (eb : Bytes) (L : Nat) (h : eb.length ≤ 32 * L) :
    (slicesList eb L).flatten = eb ++ List.replicate (32 * L - eb.length) 0 := by
  rw [slicesList_flatten_aux, List.take_of_length_le h]

/-! ## Characterisations of the hint handler and the reconstructor -/

/-- The store produced by a successful `EigenDABlob` hint: the field-element
entries, then the proof pair, then the commitment pair. -/
def ingestStore (w : Bytes → Bytes × Bytes) (x y eblob : Bytes) (L : Nat)
    (blob : Bytes) (s : Store) : Store :=
  kvSet (kvSet (kvSet (kvSet (writeFEs x y eblob L s)
    ⟨.keccak256, keccak256 (x ++ y)⟩ (x ++ y))
    ⟨.globalGeneric, keccak256 (x ++ y)⟩ (w blob).1)
    ⟨.keccak256, keccak256 (x ++ y ++ [0])⟩ (x ++ y ++ [0]))
    ⟨.globalGeneric, keccak256 (x ++ y ++ [0])⟩ (w blob).2

theorem fetch_hint_ok (p : Bytes → Except String Bytes) (w : Bytes → Bytes × Bytes)
    (c blob x y : Bytes) (L : Nat) (s : Store)
    (hproxy : p c = .ok blob)
    (hcert : BlobInfo.decode (c.drop 3) = some ⟨⟨⟨x, y⟩, L⟩⟩)
    (hlen : 32 < c.length)
    (hsize : (EigenDABlobData.encode blob).length ≤ L * BYTES_PER_FIELD_ELEMENT)
    (hx : (EigenDABlobData.encode blob).take 32 = x)
    (h64 : 64 ≤ (EigenDABlobData.encode blob).length)
    (hy : ((EigenDABlobData.encode blob).drop 32).take 32 = y) :
    fetch_hint p w c s =
      (none, ingestStore w x y (EigenDABlobData.encode blob) L blob s) := by
  simp only [fetch_hint, hproxy, hcert]
  rw [if_neg (by omega), if_neg (by omega), if_neg (by simp [hx]), if_neg (by omega),
    if_neg (by simp [hy])]
  rfl

theorem fetch_hint_mismatch (p : Bytes → Except String Bytes)
    (w : Bytes → Bytes × Bytes) (c blob x y : Bytes) (L : Nat) (s : Store)
    (hproxy : p c = .ok blob)
    (hcert : BlobInfo.decode (c.drop 3) = some ⟨⟨⟨x, y⟩, L⟩⟩)
    (hlen : 32 < c.length)
    (hsize : (EigenDABlobData.encode blob).length ≤ L * BYTES_PER_FIELD_ELEMENT)
    (hmis : (EigenDABlobData.encode blob).take 32 ≠ x) :
    fetch_hint p w c s =
      (some .commitmentMismatch, writeFEs x y (EigenDABlobData.encode blob) L s) := by
  simp only [fetch_hint, hproxy, hcert]
  rw [if_neg (by omega), if_neg (by omega), if_pos hmis]

theorem fetch_hint_mismatch_y (p : Bytes → Except String Bytes)
    (w : Bytes → Bytes × Bytes) (c blob x y : Bytes) (L : Nat) (s : Store)
    (hproxy : p c = .ok blob)
    (hcert : BlobInfo.decode (c.drop 3) = some ⟨⟨⟨x, y⟩, L⟩⟩)
    (hlen : 32 < c.length)
    (hsize : (EigenDABlobData.encode blob).length ≤ L * BYTES_PER_FIELD_ELEMENT)
    (hx : (EigenDABlobData.encode blob).take 32 = x)
    (h64 : 64 ≤ (EigenDABlobData.encode blob).length)
    (hy : ((EigenDABlobData.encode blob).drop 32).take 32 ≠ y) :
    fetch_hint p w c s =
      (some .commitmentMismatch, writeFEs x y (EigenDABlobData.encode blob) L s) := by
  simp only [fetch_hint, hproxy, hcert]
  rw [if_neg (by omega), if_neg (by omega), if_neg (by simp [hx]), if_neg (by omega),
    if_pos hy]

theorem fetch_hint_short_panic (p : Bytes → Except String Bytes)
    (w : Bytes → Bytes × Bytes) (c blob x y : Bytes) (L : Nat) (s : Store)
    (hproxy : p c = .ok blob)
    (hcert : BlobInfo.decode (c.drop 3) = some ⟨⟨⟨x, y⟩, L⟩⟩)
    (hlen : 32 < c.length)
    (hsize : (EigenDABlobData.encode blob).length ≤ L * BYTES_PER_FIELD_ELEMENT)
    (hx : (EigenDABlobData.encode blob).take 32 = x)
    (h64 : (EigenDABlobData.encode blob).length < 64) :
    fetch_hint p w c s =
      (some .panic, writeFEs x y (EigenDABlobData.encode blob) L s) := by
  simp only [fetch_hint, hproxy, hcert]
  rw [if_neg (by omega), if_neg (by omega), if_neg (by simp [hx]), if_pos h64]

/-- Structural facts extracted from a successful certificate decode. -/
theorem cert_decode_inv (b : Bytes) (x y : Bytes) (L : Nat)
    (h : BlobInfo.decode b = some ⟨⟨⟨x, y⟩, L⟩⟩) :
    68 ≤ b.length ∧ b.take 32 = x ∧ (b.drop 32).take 32 = y ∧
      readBe4 (b.drop 64) = L := by
  unfold BlobInfo.decode at h
  split at h
  · next h68 =>
      simp only [Option.some.injEq, BlobInfo.mk.injEq, BlobHeader.mk.injEq,
        G1Commitment.mk.injEq] at h
      exact ⟨h68, h.1.1, h.1.2, h.2⟩
  · exact absurd h (by simp)

/-- After a successful ingestion, the reconstructor finds every field-element
payload entry it asks for, regardless of what was in the store before. -/
theorem ingestStore_get_fe (w : Bytes → Bytes × Bytes) (x y eblob : Bytes)
    (L : Nat) (blob : Bytes) (s : Store) (hL : L ≤ 2 ^ 64) (j : Nat) (hj : j < L) :
    kvGet (ingestStore w x y eblob L blob s)
      ⟨.globalGeneric, keccak256 (blobKey x y j)⟩ = some (dataSlice eblob j) := by
  unfold ingestStore
  have hne₁ : (⟨.globalGeneric, keccak256 (x ++ y ++ [0])⟩ : PreimageKey) ≠
      ⟨.globalGeneric, keccak256 (blobKey x y j)⟩ :=
    keyDigest_length_ne (by simp [keccak256, blobKey_length]; omega)
  have hne₂ : (⟨.keccak256, keccak256 (x ++ y ++ [0])⟩ : PreimageKey) ≠
      ⟨.globalGeneric, keccak256 (blobKey x y j)⟩ :=
    keyDigest_length_ne (by simp [keccak256, blobKey_length]; omega)
  have hne₃ : (⟨.globalGeneric, keccak256 (x ++ y)⟩ : PreimageKey) ≠
      ⟨.globalGeneric, keccak256 (blobKey x y j)⟩ :=
    keyDigest_length_ne (by simp [keccak256, blobKey_length])
  have hne₄ : (⟨.keccak256, keccak256 (x ++ y)⟩ : PreimageKey) ≠
      ⟨.globalGeneric, keccak256 (blobKey x y j)⟩ :=
    keyDigest_length_ne (by simp [keccak256, blobKey_length])
  rw [kvGet_set_ne _ _ _ _ hne₁, kvGet_set_ne _ _ _ _ hne₂, kvGet_set_ne _ _ _ _ hne₃,
    kvGet_set_ne _ _ _ _ hne₄]
  exact writeFEs_get x y eblob L s hL j hj

/-- After a successful ingestion by the hint handler, `blob_get` run against
any base store succeeds and returns exactly the bytes the proxy served. -/
theorem blob_get_ok (p : Bytes → Except String Bytes) (w : Bytes → Bytes × Bytes)
    (c blob x y : Bytes) (L : Nat) (s : Store)
    (hby : ∀ b ∈ c, b < 256)
    (hblen : blob.length < 2 ^ 32)
    (hproxy : p c = .ok blob)
    (hcert : BlobInfo.decode (c.drop 3) = some ⟨⟨⟨x, y⟩, L⟩⟩)
    (hlen : 32 < c.length)
    (hsize : (EigenDABlobData.encode blob).length ≤ L * BYTES_PER_FIELD_ELEMENT)
    (hx : (EigenDABlobData.encode blob).take 32 = x)
    (h64 : 64 ≤ (EigenDABlobData.encode blob).length)
    (hy : ((EigenDABlobData.encode blob).drop 32).take 32 = y) :
    blob_get (fetch_hint p w) s c =
      (.ok blob, ingestStore w x y (EigenDABlobData.encode blob) L blob s, [c]) := by
  obtain ⟨h68, -, -, hL⟩ := cert_decode_inv (c.drop 3) x y L hcert
  have hdlen : (c.drop 3).length = c.length - 3 := List.length_drop 3 c
  have hL32 : L < 2 ^ 32 := by
    rw [← hL]
    exact readBe4_lt _ (fun b hb =>
      hby b (List.mem_of_mem_drop (List.mem_of_mem_drop hb)))
  have hL64 : L ≤ 2 ^ 64 := by omega
  have hsize' : (EigenDABlobData.encode blob).length ≤ 32 * L := by
    have hsz := hsize
    rw [show BYTES_PER_FIELD_ELEMENT = 32 from rfl] at hsz
    omega
  simp only [blob_get, fetch_hint_ok p w c blob x y L s hproxy hcert hlen hsize hx h64 hy]
  rw [if_neg (by omega), hcert]
  simp only
  rw [readFEs_ok _ x y (EigenDABlobData.encode blob) L
    (fun i hi => ingestStore_get_fe w x y (EigenDABlobData.encode blob) L blob s hL64 i hi)]
  simp only
  rw [slicesList_flatten _ _ hsize', decode_encode_pad blob _ hblen]

/-! ## Concrete example inputs used by the claim theorems -/

/-- A commitment point x equal to the encoded-blob header of `exBlob`
(so that the handler's recomputed-commitment check passes). -/
def exX : Bytes := [0, 0, 0, 0, 0, 64] ++ List.replicate 26 0

/-- A commitment point y equal to the first 32 payload bytes of `exBlob`. -/
def exY : Bytes := List.replicate 32 0

/-- A 64-byte proxy blob: 32 zero bytes followed by 32 bytes of 17. -/
def exBlob : Bytes := List.replicate 32 0 ++ List.replicate 32 17

/-- A commitment (3-byte header ∥ certificate) whose certificate records
`exX`, `exY` and data_length 3, large enough for the encoded `exBlob`. -/
def exCommitment : Bytes := [9, 9, 9] ++ exX ++ exY ++ be4 3

/-- A proxy always serving `exBlob`. -/
def exProxy : Bytes → Except String Bytes := fun _ => .ok exBlob

/-- A deterministic fake of the external witness-builder capability. -/
def exWitnessFn : Bytes → Bytes × Bytes := fun _ => ([], [])

/-- A commitment like `exCommitment` but whose recorded x (all bytes 1)
differs from the commitment recomputed over the fetched blob. -/
def exC2 : Bytes := [9, 9, 9] ++ List.replicate 32 1 ++ List.replicate 32 2 ++ be4 3

/-- The spec's §8 example commitment: 3-byte header plus a certificate with
data_length 2, x all bytes 1, y all bytes 2. -/
def exC3 : Bytes := [1, 0, 0] ++ List.replicate 32 1 ++ List.replicate 32 2 ++ be4 2

/-- The spec's §8 example proxy blob: 32 zero bytes ∥ 32 bytes of 255. -/
def exBlob3 : Bytes := List.replicate 32 0 ++ List.replicate 32 255

/-- A proxy always serving `exBlob3`. -/
def exProxy3 : Bytes → Except String Bytes := fun _ => .ok exBlob3

/-- A commitment shorter than the client-side minimum length (34 bytes). -/
def shortCommitment : Bytes := List.replicate 34 0

/-- Every branch of `blob_get` sends exactly one `EigenDABlob` hint carrying
the commitment — including the branches that fail the validation steps. -/
theorem blob_get_sends (sh : Bytes → Store → Option HostErr × Store)
    (kv : Store) (c : Bytes) : (blob_get sh kv c).2.2 = [c] := by
  unfold blob_get
  repeat' first
    | split
    | dsimp only

/-! ## Claim C1 -/

/-- C1 counterexample: for the concrete commitment `exCommitment` (a valid
certificate with data_length 3) the host ingestion followed by `blob_get`
returns exactly the bytes fetched from the proxy (`exBlob`), while the
blob-transform decode of those fetched bytes is the empty byte string — so
the claimed equality "result = decode(fetch(commitment))" is false at this
input. -/
theorem c1_counterexample :
    (blob_get (fetch_hint exProxy exWitnessFn)
        ((fetch_hint exProxy exWitnessFn exCommitment []).2) exCommitment).1 =
      .ok exBlob ∧
    EigenDABlobData.decode exBlob = .ok ([] : Bytes) ∧ exBlob ≠ ([] : Bytes) := by
  decide

/-- C1 (amended): for every commitment whose certificate is valid and
consistent with the fetched blob (the host ingestion succeeds), running the
EigenDABlob hint handler and then `blob_get` on the same store returns bytes
equal to the bytes fetched from the proxy — the blob-transform decode of the
encoded blob the host stored, not the decode of the fetched bytes themselves —
and calling `blob_get` again on the resulting store returns the same bytes
(repeated reconstruction is idempotent). -/
theorem c1_amended_roundtrip (p : Bytes → Except String Bytes)
    (w : Bytes → Bytes × Bytes) (c blob x y : Bytes) (L : Nat) (s : Store)
    (hby : ∀ b ∈ c, b < 256)
    (hblen : blob.length < 2 ^ 32)
    (hproxy : p c = .ok blob)
    (hcert : BlobInfo.decode (c.drop 3) = some ⟨⟨⟨x, y⟩, L⟩⟩)
    (hlen : 32 < c.length)
    (hsize : (EigenDABlobData.encode blob).length ≤ L * BYTES_PER_FIELD_ELEMENT)
    (hx : (EigenDABlobData.encode blob).take 32 = x)
    (h64 : 64 ≤ (EigenDABlobData.encode blob).length)
    (hy : ((EigenDABlobData.encode blob).drop 32).take 32 = y) :
    (blob_get (fetch_hint p w) ((fetch_hint p w c s).2) c).1 = .ok blob ∧
    (blob_get (fetch_hint p w)
      (blob_get (fetch_hint p w) ((fetch_hint p w c s).2) c).2.1 c).1 = .ok blob := by
  constructor
  · rw [blob_get_ok p w c blob x y L _ hby hblen hproxy hcert hlen hsize hx h64 hy]
  · rw [blob_get_ok p w c blob x y L _ hby hblen hproxy hcert hlen hsize hx h64 hy,
      blob_get_ok p w c blob x y L _ hby hblen hproxy hcert hlen hsize hx h64 hy]

/-- C1 witness: the amended round-trip theorem applied at the concrete
`exCommitment`/`exProxy` input. -/
theorem c1_amended_roundtrip_witness :
    (blob_get (fetch_hint exProxy exWitnessFn)
        ((fetch_hint exProxy exWitnessFn exCommitment []).2) exCommitment).1 =
      .ok exBlob ∧
    (blob_get (fetch_hint exProxy exWitnessFn)
      (blob_get (fetch_hint exProxy exWitnessFn)
        ((fetch_hint exProxy exWitnessFn exCommitment []).2) exCommitment).2.1
      exCommitment).1 = .ok exBlob :=
  c1_amended_roundtrip exProxy exWitnessFn exCommitment exBlob exX exY 3 []
    (by decide) (by decide) rfl (by decide) (by decide) (by decide) (by decide)
    (by decide) (by decide)

/-! ## Claim C2 -/

/-- C2 counterexample: for the concrete commitment `exC2`, the recomputed
commitment differs from the recorded point and the handler does fail with the
commitment-mismatch error, but the key-value store is NOT left without entries
for that commitment: the field-element payload entry for index 0 was written
before the check and survives, so a subsequent field-element read succeeds —
the all-or-nothing claim is false at this input. -/
theorem c2_counterexample :
    (fetch_hint exProxy exWitnessFn exC2 []).1 = some .commitmentMismatch ∧
    kvGet (fetch_hint exProxy exWitnessFn exC2 []).2
        ⟨.globalGeneric, keccak256 (blobKey (List.replicate 32 1) (List.replicate 32 2) 0)⟩ =
      some (dataSlice (EigenDABlobData.encode exBlob) 0) := by
  decide

/-- A commitment whose recorded x matches the recomputed commitment (the
header of the encoded `exBlob`) but whose recorded y (all bytes 9) differs
from the recomputed y (all zeros): the y-only mismatch case. -/
def exC2y : Bytes := [9, 9, 9] ++ exX ++ List.replicate 32 9 ++ be4 3

/-- A proxy serving the empty blob, whose encoding is 32 bytes — too short
for the `[32..64]` slice of the recomputed-commitment check. -/
def exProxyEmpty : Bytes → Except String Bytes := fun _ => .ok []

/-- A commitment whose recorded x (all zeros) matches the header of the
encoded empty blob, with data_length 1: with the x comparison passing and the
encoded blob shorter than 64 bytes, the y slice panics. -/
def exC2p : Bytes := [9, 9, 9] ++ List.replicate 32 0 ++ List.replicate 32 2 ++ be4 1

/-- C2 (amended): whenever the commitment recomputed over the fetched blob
(the first 64 bytes of the re-encoded blob) differs from the certificate's
recorded point — an x mismatch, or an x match with a y mismatch when the
encoded blob has at least 64 bytes — the hint handler fails with the
commitment-mismatch error; when x matches but the encoded blob is shorter
than 64 bytes, the `[32..64]` slice itself panics instead of producing the
mismatch error. In every one of these cases the field-element entries written
before the check survive in the store (a subsequent field-element read
succeeds), and only the proof and commitment entries are withheld (their keys
are untouched). -/
theorem c2_amended_partial_writes (p : Bytes → Except String Bytes)
    (w : Bytes → Bytes × Bytes) (c blob x y : Bytes) (L : Nat) (s : Store)
    (hby : ∀ b ∈ c, b < 256)
    (hproxy : p c = .ok blob)
    (hcert : BlobInfo.decode (c.drop 3) = some ⟨⟨⟨x, y⟩, L⟩⟩)
    (hlen : 32 < c.length)
    (hsize : (EigenDABlobData.encode blob).length ≤ L * BYTES_PER_FIELD_ELEMENT)
    (hmis : (EigenDABlobData.encode blob).take 32 ≠ x ∨
      (64 ≤ (EigenDABlobData.encode blob).length ∧
        (EigenDABlobData.encode blob).take 32 = x ∧
        ((EigenDABlobData.encode blob).drop 32).take 32 ≠ y) ∨
      ((EigenDABlobData.encode blob).length < 64 ∧
        (EigenDABlobData.encode blob).take 32 = x))
    (hL : 0 < L) :
    (fetch_hint p w c s).2 = writeFEs x y (EigenDABlobData.encode blob) L s ∧
    (fetch_hint p w c s).1 =
      some (if (EigenDABlobData.encode blob).length < 64 ∧
          (EigenDABlobData.encode blob).take 32 = x
        then HostErr.panic else HostErr.commitmentMismatch) ∧
    kvGet (fetch_hint p w c s).2 ⟨.globalGeneric, keccak256 (blobKey x y 0)⟩ =
      some (dataSlice (EigenDABlobData.encode blob) 0) ∧
    kvGet (fetch_hint p w c s).2 ⟨.globalGeneric, keccak256 (x ++ y)⟩ =
      kvGet s ⟨.globalGeneric, keccak256 (x ++ y)⟩ ∧
    kvGet (fetch_hint p w c s).2 ⟨.globalGeneric, keccak256 (x ++ y ++ [0])⟩ =
      kvGet s ⟨.globalGeneric, keccak256 (x ++ y ++ [0])⟩ := by
  obtain ⟨h68, -, -, hLeq⟩ := cert_decode_inv (c.drop 3) x y L hcert
  have hL32 : L < 2 ^ 32 := by
    rw [← hLeq]
    exact readBe4_lt _ (fun b hb =>
      hby b (List.mem_of_mem_drop (List.mem_of_mem_drop hb)))
  have hrun : fetch_hint p w c s =
      (some (if (EigenDABlobData.encode blob).length < 64 ∧
          (EigenDABlobData.encode blob).take 32 = x
        then HostErr.panic else HostErr.commitmentMismatch),
       writeFEs x y (EigenDABlobData.encode blob) L s) := by
    rcases hmis with hx | ⟨h64, hx, hy⟩ | ⟨h64, hx⟩
    · rw [fetch_hint_mismatch p w c blob x y L s hproxy hcert hlen hsize hx,
        if_neg (fun hc => hx hc.2)]
    · rw [fetch_hint_mismatch_y p w c blob x y L s hproxy hcert hlen hsize hx h64 hy,
        if_neg (by rintro ⟨hlt, -⟩; omega)]
    · rw [fetch_hint_short_panic p w c blob x y L s hproxy hcert hlen hsize hx h64,
        if_pos ⟨h64, hx⟩]
  rw [hrun]
  refine ⟨rfl, rfl, ?_, ?_, ?_⟩
  · exact writeFEs_get x y (EigenDABlobData.encode blob) L s (by omega) 0 hL
  · refine writeFEs_get_other x y (EigenDABlobData.encode blob) L s _ ?_
    intro i hi he
    have hlg := congrArg List.length he
    simp only [keccak256, List.length_append, blobKey_length] at hlg
    omega
  · refine writeFEs_get_other x y (EigenDABlobData.encode blob) L s _ ?_
    intro i hi he
    have hlg := congrArg List.length he
    simp only [keccak256, List.length_append, blobKey_length, List.length_cons,
      List.length_nil] at hlg
    omega

/-- C2 witness: the amended theorem applied at three concrete inputs covering
all its cases — the x mismatch (`exC2`), the y-only mismatch (`exC2y`), and
the short-encoded-blob panic (`exC2p`); in each case the error is as stated
and the field-element payload entry for index 0 survives in the store. -/
theorem c2_amended_partial_writes_witness :
    ((fetch_hint exProxy exWitnessFn exC2 []).1 = some .commitmentMismatch ∧
     kvGet (fetch_hint exProxy exWitnessFn exC2 []).2
         ⟨.globalGeneric, keccak256 (blobKey (List.replicate 32 1) (List.replicate 32 2) 0)⟩ =
       some (dataSlice (EigenDABlobData.encode exBlob) 0)) ∧
    ((fetch_hint exProxy exWitnessFn exC2y []).1 = some .commitmentMismatch ∧
     kvGet (fetch_hint exProxy exWitnessFn exC2y []).2
         ⟨.globalGeneric, keccak256 (blobKey exX (List.replicate 32 9) 0)⟩ =
       some (dataSlice (EigenDABlobData.encode exBlob) 0)) ∧
    ((fetch_hint exProxyEmpty exWitnessFn exC2p []).1 = some .panic ∧
     kvGet (fetch_hint exProxyEmpty exWitnessFn exC2p []).2
         ⟨.globalGeneric, keccak256 (blobKey (List.replicate 32 0) (List.replicate 32 2) 0)⟩ =
       some (dataSlice (EigenDABlobData.encode ([] : Bytes)) 0)) :=
  have h1 := c2_amended_partial_writes exProxy exWitnessFn exC2 exBlob
    (List.replicate 32 1) (List.replicate 32 2) 3 []
    (by decide) rfl (by decide) (by decide) (by decide) (Or.inl (by decide)) (by decide)
  have h2 := c2_amended_partial_writes exProxy exWitnessFn exC2y exBlob
    exX (List.replicate 32 9) 3 []
    (by decide) rfl (by decide) (by decide) (by decide)
    (Or.inr (Or.inl (by decide))) (by decide)
  have h3 := c2_amended_partial_writes exProxyEmpty exWitnessFn exC2p ([] : Bytes)
    (List.replicate 32 0) (List.replicate 32 2) 1 []
    (by decide) rfl (by decide) (by decide) (by decide)
    (Or.inr (Or.inr (by decide))) (by decide)
  ⟨⟨h1.2.1, h1.2.2.1⟩, ⟨h2.2.1, h2.2.2.1⟩, h3.2.1, h3.2.2.1⟩

/-! ## Claim C3 -/

/-- C3 counterexample: on the spec's §8 example (3-byte header, certificate
with data_length 2, x all 1s, y all 2s; proxy returns 32 zero bytes ∥ 32 0xFF
bytes), the hint handler does NOT perform 6 writes and reconstruction does NOT
return the 64 bytes: the conjunction claimed by the spec is false at this
input. -/
theorem c3_counterexample :
    ¬ (((fetch_hint exProxy3 exWitnessFn exC3 []).2).length = 6 ∧
       (blob_get (fetch_hint exProxy3 exWitnessFn)
           ((fetch_hint exProxy3 exWitnessFn exC3 []).2) exC3).1 = .ok exBlob3) := by
  decide

/-- C3 (amended): on the spec's §8 example the encoded 64-byte blob occupies
more than data_length×32 = 64 bytes, so the hint handler fails the size
`assert!` (the invariant breach is reported, not truncated) before performing
any write — the store stays empty (0 writes, not 6) — and the reconstructor
fails with the propagated hint failure instead of returning the 64 bytes. -/
theorem c3_amended_behavior :
    fetch_hint exProxy3 exWitnessFn exC3 [] = (some .assertFailed, []) ∧
    (blob_get (fetch_hint exProxy3 exWitnessFn)
        ((fetch_hint exProxy3 exWitnessFn exC3 []).2) exC3).1 =
      .error (.hintFailed .assertFailed) := by
  decide

/-! ## Claim C4 -/

/-- C4 counterexample: for the 34-byte commitment `shortCommitment` (shorter
than the client-side minimum of 36 bytes), `blob_get` does fail with the
insufficient-data error, but only AFTER emitting an `EigenDABlob` hint — the
sent-hint trace is `[shortCommitment]`, not empty, so "no hint is sent for a
too-short commitment" is false at this input. -/
theorem c4_counterexample :
    (blob_get (fun _ s => (none, s)) [] shortCommitment).1 =
      .error .insufficientData ∧
    (blob_get (fun _ s => (none, s)) [] shortCommitment).2.2 = [shortCommitment] ∧
    (blob_get (fun _ s => (none, s)) [] shortCommitment).2.2 ≠ [] := by
  decide

/-- C4 (amended): `blob_get` emits the `EigenDABlob` hint BEFORE the
minimum-length validation: a hint carrying the commitment is sent on every
call, including for every too-short commitment; when the hint round-trip is
acknowledged, `blob_get` then fails with the insufficient-data error for every
commitment of length ≤ 35. -/
theorem c4_amended_hint_first (sendHint : Bytes → Store → Option HostErr × Store)
    (kv kv' : Store) (c : Bytes)
    (hshort : c.length ≤ 35)
    (hack : sendHint c kv = (none, kv')) :
    blob_get sendHint kv c = (.error .insufficientData, kv', [c]) ∧
    ∀ (sh : Bytes → Store → Option HostErr × Store) (kv₀ : Store),
      (blob_get sh kv₀ c).2.2 = [c] := by
  constructor
  · simp only [blob_get, hack]
    rw [if_pos (by omega)]
  · intro sh kv₀
    exact blob_get_sends sh kv₀ c

/-- C4 witness: the amended theorem applied at the 34-byte commitment with a
trivially acknowledging host. -/
theorem c4_amended_hint_first_witness :
    blob_get (fun _ s => (none, s)) [] shortCommitment =
      (.error .insufficientData, [], [shortCommitment]) ∧
    ∀ (sh : Bytes → Store → Option HostErr × Store) (kv₀ : Store),
      (blob_get sh kv₀ shortCommitment).2.2 = [shortCommitment] :=
  c4_amended_hint_first (fun _ s => (none, s)) [] [] shortCommitment
    (by decide) rfl

/-! ## Claim C5 -/

/-- C5 counterexample: a connection (send) error is mapped to the
`RetrieveBlobWithCommitment` variant, not to `NetworkError` — the claim that
every timeout or connection error yields `NetworkError` is false at this
input. -/
theorem c5_counterexample :
    retrieve_blob_with_commitment (.sendError "connection refused") =
      .error (.RetrieveBlobWithCommitment "connection refused") ∧
    resultIsNetworkError
      (retrieve_blob_with_commitment (.sendError "connection refused")) = false :=
  ⟨rfl, rfl⟩

/-- C5 (amended): `retrieve_blob_with_commitment` returns the body bytes on
status 200, `NotFound` on status 404, and `NetworkError` for every other
status code and for the elapsed timeout; a connection (send) error, however,
is mapped to `RetrieveBlobWithCommitment`, not `NetworkError`. The embedding
consumes exactly one HTTP outcome: there are no retries. -/
theorem c5_amended_status_mapping :
    (∀ bytes : Bytes,
      retrieve_blob_with_commitment (.response 200 (.ok bytes)) = .ok bytes) ∧
    (∀ body : Except String Bytes,
      retrieve_blob_with_commitment (.response 404 body) = .error .NotFound) ∧
    (∀ (s : Nat) (body : Except String Bytes), s ≠ 200 → s ≠ 404 →
      resultIsNetworkError (retrieve_blob_with_commitment (.response s body)) = true) ∧
    (∀ m : String,
      resultIsNetworkError (retrieve_blob_with_commitment (.timeoutElapsed m)) = true) ∧
    (∀ m : String,
      retrieve_blob_with_commitment (.sendError m) =
        .error (.RetrieveBlobWithCommitment m)) := by
  refine ⟨fun bytes => rfl, fun body => ?_, fun s body h200 h404 => ?_,
    fun m => rfl, fun m => rfl⟩
  · simp [retrieve_blob_with_commitment]
  · simp [retrieve_blob_with_commitment, h200, h404, resultIsNetworkError]

/-- C5 witness: the amended mapping applied at concrete outcomes (status 200,
404, 500, an elapsed timeout and a connection error). -/
theorem c5_amended_status_mapping_witness :
    retrieve_blob_with_commitment (.response 200 (.ok [1, 2])) = .ok [1, 2] ∧
    retrieve_blob_with_commitment (.response 404 (.ok [])) = .error .NotFound ∧
    resultIsNetworkError (retrieve_blob_with_commitment (.response 500 (.ok []))) = true ∧
    resultIsNetworkError (retrieve_blob_with_commitment (.timeoutElapsed "elapsed")) = true ∧
    retrieve_blob_with_commitment (.sendError "refused") =
      .error (.RetrieveBlobWithCommitment "refused") :=
  ⟨c5_amended_status_mapping.1 [1, 2],
   c5_amended_status_mapping.2.1 (.ok []),
   c5_amended_status_mapping.2.2.1 500 (.ok []) (by decide) (by decide),
   c5_amended_status_mapping.2.2.2.1 "elapsed",
   c5_amended_status_mapping.2.2.2.2 "refused"⟩

/-! ## Claim C6 -/

set_option maxHeartbeats 2000000 in
/-- Printing the base hint set is the exact inverse of parsing it. -/
theorem hintType_toStr_fromStr (s : String) (h : HintType)
    (hh : HintType.fromStr s = some h) : HintType.toStr h = s := by
  unfold HintType.fromStr at hh
  split_ifs at hh <;> cases hh <;> subst_vars <;> rfl

set_option maxHeartbeats 2000000 in
/-- C6: parsing a hint tag string first tries the base `HintType` parser
(every base-accepted tag parses to `Standard`), then accepts exactly the
literal "eigen-da-blob" as `EigenDABlob`, and fails with the unknown-hint
error on any other string; and for every tag the parser accepts, formatting
the parsed value reproduces the tag exactly (the normal form of a tag is the
tag itself — no case folding or trimming happens anywhere). -/
theorem c6_hint_roundtrip :
    (∀ (s : String) (w : HintWrapper),
      HintWrapper.fromStr s = .ok w → HintWrapper.format w = s) ∧
    HintWrapper.fromStr "eigen-da-blob" = .ok .eigenDABlob ∧
    (∀ (s : String) (h : HintType), HintType.fromStr s = some h →
      HintWrapper.fromStr s = .ok (.standard h)) ∧
    (∀ s : String, HintType.fromStr s = none → s ≠ "eigen-da-blob" →
      HintWrapper.fromStr s = .error ⟨"unknown hint"⟩) := by
  refine ⟨?_, by decide, ?_, ?_⟩
  · intro s w hw
    unfold HintWrapper.fromStr at hw
    cases hbase : HintType.fromStr s with
    | some base =>
      rw [hbase] at hw
      cases hw
      exact hintType_toStr_fromStr s base hbase
    | none =>
      rw [hbase] at hw
      by_cases he : s = "eigen-da-blob"
      · rw [if_pos he] at hw
        cases hw
        simp [HintWrapper.format, he]
      · rw [if_neg he] at hw
        cases hw
  · intro s h hh
    unfold HintWrapper.fromStr
    rw [hh]
  · intro s hnone hne
    unfold HintWrapper.fromStr
    rw [hnone, if_neg hne]

set_option maxHeartbeats 2000000 in
/-- C6 witness: the round-trip applied at the accepted tags "eigen-da-blob"
and "l1-blob". -/
theorem c6_hint_roundtrip_witness :
    HintWrapper.format .eigenDABlob = "eigen-da-blob" ∧
    HintWrapper.format (.standard .l1Blob) = "l1-blob" :=
  ⟨c6_hint_roundtrip.1 "eigen-da-blob" .eigenDABlob c6_hint_roundtrip.2.1,
   c6_hint_roundtrip.1 "l1-blob" (.standard .l1Blob) (by decide)⟩

/-! ## Claim C7 -/

/-- A batcher transaction carrying an inline frame `[7, 7]`. -/
def c7Tx1 : TxEnvelope := ⟨.legacy, some 10, [0xed, 1, 7, 7], [], 20⟩

/-- A batcher transaction carrying a DA frame reference (commitment `[5, 5]`,
declared length 4, quorum ids `[1]`). -/
def c7Tx2 : TxEnvelope := ⟨.legacy, some 10, [0xed, 2, 0, 4, 2, 5, 5, 1], [], 20⟩

/-- A plain-blob batcher transaction carrying versioned hash 77. -/
def c7Tx3 : TxEnvelope := ⟨.eip4844, some 10, [], [77], 20⟩

/-- The DA provider for the C7 block: commitment `[5, 5]` resolves to a blob
whose 4-byte truncation decodes to the byte strings `[1]` and `[2]` (the two
trailing bytes exercise the declared-length truncation). -/
def c7Provider : Bytes → Except String Bytes :=
  fun c => if c = [5, 5] then .ok [1, 1, 1, 2, 9, 9] else .error "no blob"

/-- The chain provider serving the C7 block's three transactions. -/
def c7Chain : Nat → Except String (List TxEnvelope) :=
  fun h => if h = 99 then .ok [c7Tx1, c7Tx2, c7Tx3] else .error "no block"

/-- The blob fetcher for hash 77: one blob whose decoded bytes decode to the
single byte string `[3, 3]`. -/
def c7BlobFetcher : List IndexedBlobHash → Except String (List Bytes) :=
  fun hs =>
    if hs = [⟨77, 0⟩] then .ok [EigenDABlobData.encode (encodeVecOfBytes [[3, 3]])]
    else .error "no blobs"

/-- A fresh (closed) derivation source configured with batcher address 10. -/
def c7Src : EigenDASource := ⟨10, [], false⟩

/-- The C7 block reference. -/
def c7Blk : BlockInfo := ⟨99⟩

/-- One `next` pull on the C7 block, threading the source state. -/
def c7Step (p : Except PipelineErr Bytes × EigenDASource) :
    Except PipelineErr Bytes × EigenDASource :=
  EigenDASource.next c7Chain c7BlobFetcher c7Provider p.2 c7Blk 20

/-- C7: for a block mixing an inline-frame transaction, a DA-referenced
transaction and a plain-blob transaction, the scan queues the inline frame and
the reference-resolved frames in transaction scan order and the blob-decoded
frame is appended after them; `next()` yields `[7,7]`, `[1]`, `[2]`, `[3,3]`
in that order and then fails with the `Eof` signal once the queue is drained;
`clear()` resets the source to the closed initial state, so reloading the same
block reproduces the same frame sequence. -/
theorem c7_scan_order_eof_clear :
    data_from_eigen_da c7Provider 10 20 [c7Tx1, c7Tx2, c7Tx3] 0 =
      .ok ([[7, 7], [1], [2]], [⟨77, 0⟩]) ∧
    (c7Step (.error .eof, c7Src)).1 = .ok [7, 7] ∧
    (c7Step (c7Step (.error .eof, c7Src))).1 = .ok [1] ∧
    (c7Step (c7Step (c7Step (.error .eof, c7Src)))).1 = .ok [2] ∧
    (c7Step (c7Step (c7Step (c7Step (.error .eof, c7Src))))).1 = .ok [3, 3] ∧
    (c7Step (c7Step (c7Step (c7Step (c7Step (.error .eof, c7Src)))))).1 =
      .error .eof ∧
    EigenDASource.clear
      (c7Step (c7Step (c7Step (c7Step (c7Step (.error .eof, c7Src)))))).2 = c7Src ∧
    (c7Step (.error .eof,
      EigenDASource.clear
        (c7Step (c7Step (c7Step (c7Step (c7Step (.error .eof, c7Src)))))).2)).1 =
      .ok [7, 7] := by
  decide

/-! ## Claim C8 -/

/-- Reading any position of an all-zero list with default 0 yields 0. -/
theorem getD_replicate_zero (k m : Nat) :
    (List.replicate k (0 : Nat)).getD m 0 = 0 := by
  by_cases h : m < k
  · rw [List.getD_eq_getElem _ _ (by simpa using h)]
    simp
  · rw [List.getD_eq_default _ _ (by simp; omega)]

/-- C8: every field-element payload slice is exactly 32 bytes long; within a
slot, every byte position lying at or past the end of the encoded blob reads
zero (the missing suffix is zero-padded), and a slot starting at or beyond the
encoded length is entirely zero; moreover, after a successful ingestion, the
payload entry stored for index `i` is exactly this 32-byte slice — no
field-element entry is ever short or undefined. -/
theorem c8_zero_padding (eblob : Bytes) (i : Nat) :
    (dataSlice eblob i).length = 32 ∧
    (∀ j, j < 32 → eblob.length ≤ i * 32 + j → (dataSlice eblob i).getD j 0 = 0) ∧
    (eblob.length ≤ i * 32 → dataSlice eblob i = List.replicate 32 0) ∧
    (∀ (w : Bytes → Bytes × Bytes) (x y blob : Bytes) (L : Nat) (s : Store),
      L ≤ 2 ^ 64 → i < L →
      kvGet (ingestStore w x y eblob L blob s)
        ⟨.globalGeneric, keccak256 (blobKey x y i)⟩ = some (dataSlice eblob i)) := by
  refine ⟨dataSlice_length eblob i, ?_, ?_, ?_⟩
  · intro j hj hpast
    simp only [dataSlice]
    by_cases hstart : eblob.length ≤ i * 32
    · rw [if_pos hstart]
      exact getD_replicate_zero 32 j
    · rw [if_neg hstart]
      have hchunk : ((eblob.drop (i * 32)).take 32).length ≤ j := by
        simp only [List.length_take, List.length_drop]
        omega
      rw [List.getD_append_right _ _ _ _ hchunk]
      exact getD_replicate_zero _ _
  · intro hstart
    simp only [dataSlice]
    rw [if_pos hstart]
  · intro w x y blob L s hL hi
    exact ingestStore_get_fe w x y eblob L blob s hL i hi

/-- C8 witness: the zero-padding facts applied to a 40-byte encoded blob at
slot 1 (a partially filled slot) and slot 2 (an entirely out-of-range slot,
shown through the general theorem at index 2). -/
theorem c8_zero_padding_witness :
    (dataSlice (List.replicate 40 7) 1).length = 32 ∧
    (dataSlice (List.replicate 40 7) 1).getD 10 0 = 0 ∧
    dataSlice (List.replicate 40 7) 2 = List.replicate 32 0 :=
  ⟨(c8_zero_padding (List.replicate 40 7) 1).1,
   (c8_zero_padding (List.replicate 40 7) 1).2.1 10 (by decide) (by decide),
   (c8_zero_padding (List.replicate 40 7) 2).2.2.1 (by decide)⟩

/-! ## Claim C9 -/

/-- C9: during the transaction scan, a blob-carrying (EIP-4844) transaction
whose destination is not the configured batcher address, or whose recovered
signer differs from the expected signer, contributes no frames and records no
blob hashes but still advances the running global blob-hash index by its
number of blob versioned hashes: processing it at index `idx` is exactly
processing the remaining transactions at index `idx + |blob hashes|`, so
hashes recorded from later transactions keep their correct indices. -/
theorem c9_index_advance (provider : Bytes → Except String Bytes)
    (self_batcher arg_batcher : Nat) (tx : TxEnvelope) (rest : List TxEnvelope)
    (idx d : Nat)
    (h4844 : tx.txType = .eip4844)
    (hto : tx.to_addr = some d)
    (hmis : d ≠ self_batcher ∨ tx.signer ≠ arg_batcher) :
    data_from_eigen_da provider self_batcher arg_batcher (tx :: rest) idx =
      data_from_eigen_da provider self_batcher arg_batcher rest
        (idx + tx.blob_versioned_hashes.length) := by
  rcases hmis with hmis | hmis
  · simp [data_from_eigen_da, h4844, hto, hmis, TxEnvelope.blobHashes?]
  · by_cases hd : d = self_batcher
    · simp [data_from_eigen_da, h4844, hto, hd, hmis, TxEnvelope.blobHashes?]
    · simp [data_from_eigen_da, h4844, hto, hd, TxEnvelope.blobHashes?]

/-- C9 witness: a 4844 transaction with two blob hashes whose signer does not
match advances the index from 0 to 2 while contributing nothing. -/
theorem c9_index_advance_witness :
    data_from_eigen_da (fun _ => .error "none") 1 3
        [⟨.eip4844, some 1, [], [5, 6], 99⟩] 0 =
      data_from_eigen_da (fun _ => .error "none") 1 3 [] (0 + 2) :=
  c9_index_advance (fun _ => .error "none") 1 3 ⟨.eip4844, some 1, [], [5, 6], 99⟩
    [] 0 1 rfl rfl (Or.inr (by decide))

/-! ## Claim C10 -/

/-- C10: resolving a `FrameRef` truncates the returned blob with the
unguarded slice `blob_data[..blob_length]`, which is in-bounds only when the
provider returned at least `blob_length` bytes; for every frame reference
whose declared `blob_length` exceeds the returned blob's length, the slice is
out of bounds, and in this total embedding the branch surfaces as the
`slicePanic` error — both at the resolution step and for the whole scan. -/
theorem c10_slice_bound (provider : Bytes → Except String Bytes)
    (r : FrameRef) (bd : Bytes) (tx : TxEnvelope) (rest : List TxEnvelope)
    (self_batcher arg_batcher idx : Nat)
    (hok : provider r.commitment = .ok bd)
    (hshort : bd.length < r.blob_length)
    (hq : r.quorum_ids ≠ [])
    (htype : tx.txType = .legacy)
    (hto : tx.to_addr = some self_batcher)
    (hsig : tx.signer = arg_batcher)
    (hne : tx.input ≠ [])
    (hinput : tx.input.head? = some DERIVATION_VERSION_EIGEN_DA)
    (hdec : CalldataFrame.decode tx.input.tail = some ⟨some (.frameRef r)⟩) :
    resolveFrameRef provider r = .error .slicePanic ∧
    data_from_eigen_da provider self_batcher arg_batcher (tx :: rest) idx =
      .error .slicePanic := by
  have hres : resolveFrameRef provider r = .error .slicePanic := by
    simp only [resolveFrameRef, hok]
    rw [if_neg (by omega)]
  refine ⟨hres, ?_⟩
  simp [data_from_eigen_da, htype, hto, hsig, hne, hinput, hdec, hq, hres,
    TxEnvelope.blobHashes?]

/-- C10 witness: a frame reference declaring length 9 against a 6-byte blob
panics at the slice, both in isolation and inside the scan. -/
theorem c10_slice_bound_witness :
    resolveFrameRef c7Provider ⟨[5, 5], 9, [1]⟩ = .error .slicePanic ∧
    data_from_eigen_da c7Provider 10 20
        [⟨.legacy, some 10, [0xed, 2, 0, 9, 2, 5, 5, 1], [], 20⟩] 0 =
      .error .slicePanic :=
  c10_slice_bound c7Provider ⟨[5, 5], 9, [1]⟩ [1, 1, 1, 2, 9, 9]
    ⟨.legacy, some 10, [0xed, 2, 0, 9, 2, 5, 5, 1], [], 20⟩ [] 10 20 0
    (by decide) (by decide) (by decide) rfl rfl rfl (by decide) (by decide)
    (by decide)

end Hydro
